import Mathlib

/-!
Shallow embedding of the `vqng/aztec-monitoring` repository
(two Python source files: `aztec-github-actions-exporter/exporter.py`
and `gh-ci-analyzer/main.py`), and proofs settling the spec claims.

Conventions of the embedding:
* Python `datetime` instants are epoch microseconds (`Int`), together with a
  Bool recording timezone-awareness; real-valued quantities (`total_seconds`,
  durations) are modelled as exact rationals `ℚ`.
* Fallible Python code returns `Except PyError`; `KeyError`, `ValueError`
  (from `datetime.fromisoformat`), `TypeError` (naive/aware subtraction) and
  `requests` HTTP/transport errors are the relevant error shapes.
* Network collaborators (the GitHub API and the VictoriaMetrics push
  endpoint) are parameters (`Env`): functions giving each request's outcome.
* The observable behaviour of the exporter is a trace of push events.
-/

/-- Errors raised by the embedded Python code. -/
inductive PyError where
  | keyError (key : String)
  | valueError
  | typeError
  | httpError (code : Nat)
  | transportError
  deriving DecidableEq, Repr

/-- Leap-year test of the proleptic Gregorian calendar (Python `calendar`/
`datetime` rules). -/
def isLeap (y : Nat) : Bool :=
  (y % 4 == 0 && y % 100 != 0) || y % 400 == 0

/-- Number of days in month `m` of year `y` (Gregorian). -/
def daysInMonth (y m : Nat) : Nat :=
  if m == 2 then (if isLeap y then 29 else 28)
  else if m == 4 || m == 6 || m == 9 || m == 11 then 30
  else 31

/-- Days from the civil epoch 0000-03-01 to year `y`, month `m`, day `d`
(standard days-from-civil algorithm, valid for `1 ≤ y`). -/
def civilDays (y m d : Nat) : Nat :=
  let ya := if m ≤ 2 then y - 1 else y
  let era := ya / 400
  let yoe := ya - era * 400
  let doy := (153 * (if 2 < m then m - 3 else m + 9) + 2) / 5 + (d - 1)
  let doe := yoe * 365 + yoe / 4 - yoe / 100 + doy
  era * 146097 + doe

/-- Days between 1970-01-01 and the civil date `y-m-d` (may be negative). -/
def epochDays (y m d : Nat) : Int :=
  (civilDays y m d : Int) - 719468

/-- Value of a decimal digit character. -/
def digitVal (c : Char) : Nat := c.toNat - 48

/-- Two decimal digit characters as a number. -/
def dd (a b : Char) : Option Nat :=
  if a.isDigit && b.isDigit then some (digitVal a * 10 + digitVal b) else none

/-- Four decimal digit characters as a number. -/
def dddd (a b c d : Char) : Option Nat :=
  if a.isDigit && b.isDigit && c.isDigit && d.isDigit then
    some (((digitVal a * 10 + digitVal b) * 10 + digitVal c) * 10 + digitVal d)
  else none

/-- Fractional-second digits (1 to 6 of them) as microseconds, consuming the
digit run.  Returns `none` when the run is empty or longer than 6 digits. -/
def fracMicros (cs : List Char) : Option (Nat × List Char) :=
  let run := cs.takeWhile Char.isDigit
  let rest := cs.dropWhile Char.isDigit
  if run.length == 0 || 6 < run.length then none
  else
    let v := run.foldl (fun acc c => acc * 10 + digitVal c) 0
    some (v * 10 ^ (6 - run.length), rest)

/-- A UTC-offset suffix `±HH:MM`, as signed seconds. -/
def parseOffset (cs : List Char) : Option Int :=
  match cs with
  | sign :: h1 :: h2 :: ':' :: m1 :: m2 :: [] =>
    match dd h1 h2, dd m1 m2 with
    | some oh, some om =>
      if (sign == '+' || sign == '-') && oh ≤ 23 && om ≤ 59 then
        let secs : Int := (oh : Int) * 3600 + (om : Int) * 60
        some (if sign == '-' then -secs else secs)
      else none
    | _, _ => none
  | _ => none

/-- The time-of-day and offset tail of an ISO-8601 string:
`HH:MM:SS[.ffffff][±HH:MM]`.  Yields (microseconds into the day,
offset seconds if aware). -/
def parseTimeTail (cs : List Char) : Option (Nat × Option Int) :=
  match cs with
  | h1 :: h2 :: ':' :: mi1 :: mi2 :: ':' :: s1 :: s2 :: rest =>
    match dd h1 h2, dd mi1 mi2, dd s1 s2 with
    | some hh, some mi, some ss =>
      if hh ≤ 23 && mi ≤ 59 && ss ≤ 59 then
        let base := (hh * 3600 + mi * 60 + ss) * 1000000
        match rest with
        | [] => some (base, none)
        | '.' :: fs =>
          match fracMicros fs with
          | some (us, []) => some (base + us, none)
          | some (us, tail) =>
            match parseOffset tail with
            | some off => some (base + us, some off)
            | none => none
          | none => none
        | tail =>
          match parseOffset tail with
          | some off => some (base, some off)
          | none => none
      else none
    | _, _, _ => none
  | _ => none

/-- `datetime.fromisoformat` on the extended format
`YYYY-MM-DD[{T or space}HH:MM:SS[.ffffff][±HH:MM]]` (the subset of Python's
grammar this repository's inputs use; GitHub timestamps are
`YYYY-MM-DDTHH:MM:SSZ` and reach this after `.replace("Z", "+00:00")`).
Result: epoch microseconds of the instant and whether it is timezone-aware;
`none` models `ValueError`. -/
def fromisoformat (s : String) : Option (Int × Bool) :=
  match s.data with
  | y1 :: y2 :: y3 :: y4 :: '-' :: m1 :: m2 :: '-' :: d1 :: d2 :: rest =>
    match dddd y1 y2 y3 y4, dd m1 m2, dd d1 d2 with
    | some y, some m, some d =>
      if 1 ≤ y && 1 ≤ m && m ≤ 12 && 1 ≤ d && d ≤ daysInMonth y m then
        let dayUs : Int := epochDays y m d * 86400000000
        match rest with
        | [] => some (dayUs, false)
        | sep :: timeCs =>
          if sep == 'T' || sep == ' ' then
            match parseTimeTail timeCs with
            | some (us, none) => some (dayUs + (us : Int), false)
            | some (us, some off) => some (dayUs + (us : Int) - off * 1000000, true)
            | none => none
          else none
      else none
    | _, _, _ => none
  | _ => none

/-- Python `str.replace("Z", "+00:00")` on a character list: every
occurrence of the single-character pattern `Z` is replaced. -/
def replaceZchars : List Char → List Char
  | [] => []
  | c :: cs =>
    if c == 'Z' then '+' :: '0' :: '0' :: ':' :: '0' :: '0' :: replaceZchars cs
    else c :: replaceZchars cs

/-- Python `str.replace("Z", "+00:00")` as used on the raw timestamps. -/
def replaceZ (s : String) : String := ⟨replaceZchars s.data⟩

/-- A raw workflow-run JSON object as returned by the GitHub API
(`workflow_runs` array items).  The two timestamp fields are `Option` so a
missing key (Python `KeyError`) is representable; the other accessed keys are
taken as present. -/
structure RawRun where
  id : Nat
  run_number : Nat
  status : String
  conclusion : Option String
  created_at : Option String
  updated_at : Option String
  html_url : String
  head_branch : String
  head_sha : String
  deriving DecidableEq, Repr

/-- The dictionary built by `parse_run_data` (exporter.py lines 148-168 and
gh-ci-analyzer/main.py lines 48-68, which are identical).  Instants are epoch
microseconds plus an awareness flag; durations are exact rationals. -/
structure RunRecord where
  id : Nat
  run_number : Nat
  status : String
  conclusion : Option String
  created_at : Int
  created_aware : Bool
  updated_at : Int
  updated_aware : Bool
  duration_seconds : ℚ
  duration_minutes : ℚ
  html_url : String
  head_branch : String
  head_sha : String
  deriving DecidableEq, Repr

/-- `parse_run_data` (exporter.py lines 148-168): both timestamps go through
`.replace("Z", "+00:00")` and `datetime.fromisoformat`; a missing key is a
`KeyError`, an unparsable string a `ValueError`, and subtracting a naive from
an aware datetime (or vice versa) a `TypeError`.  `duration_seconds` is
`(updated_at - created_at).total_seconds()` and `duration_minutes` is
`duration_seconds / 60`; `head_sha` is truncated to its first 8 characters.
No other validation is performed. -/
def parse_run_data (run : RawRun) : Except PyError RunRecord :=
  match run.created_at with
  | none => .error (.keyError "created_at")
  | some cs =>
    match fromisoformat (replaceZ cs) with
    | none => .error .valueError
    | some (c, ca) =>
      match run.updated_at with
      | none => .error (.keyError "updated_at")
      | some us =>
        match fromisoformat (replaceZ us) with
        | none => .error .valueError
        | some (u, ua) =>
          if ca != ua then .error .typeError
          else
            let dur : ℚ := ((u - c : Int) : ℚ) / 1000000
            .ok { id := run.id, run_number := run.run_number,
                  status := run.status, conclusion := run.conclusion,
                  created_at := c, created_aware := ca,
                  updated_at := u, updated_aware := ua,
                  duration_seconds := dur, duration_minutes := dur / 60,
                  html_url := run.html_url, head_branch := run.head_branch,
                  head_sha := run.head_sha.take 8 }

/-- Prometheus text-format escaping of a label value (backslash, double
quote and newline are escaped). -/
def escapeLabelValue (s : String) : String :=
  s.data.foldl (fun acc c =>
    if c == '\\' then acc ++ "\\\\"
    else if c == '"' then acc ++ "\\\""
    else if c == '\n' then acc ++ "\\n"
    else acc.push c) ""

/-- `label1="v1",label2="v2"` rendering of a label mapping. -/
def labelPairs (labels : List (String × String)) : String :=
  String.intercalate "," (labels.map fun kv => kv.1 ++ "=\"" ++ escapeLabelValue kv.2 ++ "\"")

/-- The sample line of the exposition text for one gauge:
`name` or `name\x7b...labels...\x7d` followed by the rendered value. -/
def sampleLine (name : String) (labels : List (String × String)) (valueStr : String) : String :=
  if labels.isEmpty then name ++ " " ++ valueStr
  else name ++ "\x7b" ++ labelPairs labels ++ "\x7d " ++ valueStr

/-- Modelled from `prometheus_client.generate_latest` (an external library
call, exporter.py lines 60-72): the exposition text for a registry holding
the single gauge `name` with docstring `Workflow runs metric: name`, split on
newlines.  The trailing newline of the wire format yields a final empty
line.  The float value enters only through its Python `repr` rendering,
taken here as the string `valueStr`. -/
def generate_latest_lines (name : String) (labels : List (String × String))
    (valueStr : String) : List String :=
  ["# HELP " ++ name ++ " Workflow runs metric: " ++ name,
   "# TYPE " ++ name ++ " gauge",
   sampleLine name labels valueStr,
   ""]

/-- `exemplarlabel="v"` pairs joined by commas (exporter.py line 86). -/
def exemplarPairs (ex : List (String × String)) : String :=
  String.intercalate "," (ex.map fun kv => kv.1 ++ "=\"" ++ kv.2 ++ "\"")

/-- Python `line.startswith('#')`. -/
def startsWithHash (line : String) : Bool :=
  match line.data with
  | '#' :: _ => true
  | _ => false

/-- Python whitespace as stripped by `str.strip()`. -/
def isPySpace (c : Char) : Bool :=
  c == ' ' || c == '\t' || c == '\n' || c == '\r' || c == '\x0b' || c == '\x0c'

/-- Python `not line.strip()`: the line is empty or all whitespace. -/
def stripIsEmpty (line : String) : Bool := line.data.all isPySpace

/-- The per-line annotation loop of `push_metric_to_victoriametrics`
(exporter.py lines 77-88): comment lines and whitespace-only lines pass
through unchanged; every other line gets the timestamp appended and, when a
non-empty exemplar dict was given, a trailing `# k="v"` comment. -/
def annotateLine (timestamp : Int) (exemplar : Option (List (String × String)))
    (line : String) : String :=
  if startsWithHash line || stripIsEmpty line then line
  else
    let annotated := line ++ " " ++ toString timestamp
    match exemplar with
    | some ex => if ex.isEmpty then annotated else annotated ++ " # " ++ exemplarPairs ex
    | none => annotated

/-- The serialization half of `push_metric_to_victoriametrics` (exporter.py
lines 59-91): generate the exposition text and annotate each line. -/
def push_metric_serialize (timestamp : Int) (name valueStr : String)
    (labels : List (String × String)) (exemplar : Option (List (String × String))) :
    List String :=
  (generate_latest_lines name labels valueStr).map (annotateLine timestamp exemplar)

/-- Outcome of one HTTP POST to the ingestion endpoint: a response with a
status code, or a transport error (`requests.exceptions.RequestException`
without a response: timeout, connection failure, ...). -/
inductive HttpOutcome where
  | status (code : Nat)
  | transportError
  deriving DecidableEq, Repr

/-- `requests.Response.raise_for_status` raises exactly for client and
server error codes, 400 ≤ code < 600. -/
def raise_for_status_raises (code : Nat) : Bool := 400 ≤ code && code < 600

/-- The delivery half of `push_metric_to_victoriametrics` (exporter.py lines
97-104): `raise_for_status` inside a `try` whose `except RequestException`
prints and returns `False`; on success it returns `True`.  The function
never lets the exception escape. -/
def push_result (o : HttpOutcome) : Bool :=
  match o with
  | .status code => !raise_for_status_raises code
  | .transportError => false

/-- The fixed status vocabulary `WORKFLOW_STATUSES` (exporter.py lines
18-25). -/
def WORKFLOW_STATUSES : List String :=
  ["completed", "cancelled", "failure", "success", "timed_out", "in_progress"]

/-- `BACKFILL_COUNT` (exporter.py line 13). -/
def BACKFILL_COUNT : Nat := 10000

/-- The exporter's external collaborators for one execution:
* `countResult s` is what `get_merge_queue_runs_count_by_status(status=s)`
  produces (exporter.py lines 116-125): the `total_count` on success, or the
  error its `raise_for_status`/transport raises;
* `fetchPage per_page page` is what `get_merge_queue_runs` (lines 128-145)
  produces: the `workflow_runs` array on success, or an error;
* `pushOutcome n` is the HTTP outcome of the n-th push attempt of the
  process. -/
structure Env where
  countResult : String → Except PyError Nat
  fetchPage : Nat → Nat → Except PyError (List RawRun)
  pushOutcome : Nat → HttpOutcome

/-- One observable push: a per-status count sample, or a per-run duration
sample (with the run id exemplar as `run_id`, the sample timestamp in epoch
milliseconds, and the duration value); `ok` is the Bool
`push_metric_to_victoriametrics` returned. -/
inductive Event where
  | countPush (status : String) (value : Nat) (ok : Bool)
  | durPush (run_id : String) (timestampMs : Int) (valueSec : ℚ) (ok : Bool)
  deriving DecidableEq, Repr

/-- Whether an event is a count push. -/
def Event.isCount : Event → Bool
  | .countPush _ _ _ => true
  | _ => false

/-- Statuses of the count-push events, in order. -/
def countStatuses (evs : List Event) : List String :=
  evs.filterMap fun e => match e with | .countPush s _ _ => some s | _ => none

/-- Run ids of the duration-push events, in order. -/
def durIds (evs : List Event) : List String :=
  evs.filterMap fun e => match e with | .durPush i _ _ _ => some i | _ => none

/-- Number of duration-push events for run id `i`. -/
def durCountFor (i : String) (evs : List Event) : Nat := (durIds evs).count i

/-- Result of running `fetch_all_runs` (the exporter's generator) to
exhaustion: the records it yielded, the pages it fetched (in order), and the
error it raised, if any. -/
structure FetchResult where
  yields : List RunRecord
  pages : List Nat
  err : Option PyError
  deriving Repr

/-- The inner `for run in runs:` of `fetch_all_runs` (exporter.py lines
184-188): stop yielding when `remaining_runs` hits 0, otherwise yield
`parse_run_data(run)` (whose error propagates out of the generator) and
decrement.  Returns the accumulated yields, the remaining budget, and a
parse error if one was raised. -/
def pageYield (runs : List RawRun) (remaining : Nat) (acc : List RunRecord) :
    List RunRecord × Nat × Option PyError :=
  match runs with
  | [] => (acc, remaining, none)
  | r :: rest =>
    if remaining = 0 then (acc, 0, none)
    else
      match parse_run_data r with
      | .error e => (acc, remaining, some e)
      | .ok rec => pageYield rest (remaining - 1) (acc ++ [rec])

/-- The `while remaining_runs:` loop of the exporter's `fetch_all_runs`
(exporter.py lines 177-190), with the fetched pages logged: while the budget
is non-zero, fetch the page (logging it), stop on an empty page, yield from
a non-empty page, advance to the next page.  The loop stops only when the
budget is exhausted, a page comes back empty, or a fetch/parse error
propagates — there is **no** short-page check in this file.  `fuel` is a
structural bound on the number of page fetches; every fetched non-empty
page consumes at least one unit of the budget, so the call site's
`fuel = remaining` makes the fuel-0 base case unreachable. -/
def fetch_all_runs_go (fetchPage : Nat → Nat → Except PyError (List RawRun))
    (per_page : Nat) :
    (fuel : Nat) → (page : Nat) → (remaining : Nat) →
    List RunRecord → List Nat → FetchResult
  | 0, _, _, accY, accP => ⟨accY, accP, none⟩
  | fuel + 1, page, remaining, accY, accP =>
    if remaining = 0 then ⟨accY, accP, none⟩
    else
      match fetchPage per_page page with
      | .error e => ⟨accY, accP ++ [page], some e⟩
      | .ok [] => ⟨accY, accP ++ [page], none⟩
      | .ok (r :: rs) =>
        match pageYield (r :: rs) remaining accY with
        | (accY2, _, some e) => ⟨accY2, accP ++ [page], some e⟩
        | (accY2, rem2, none) =>
          fetch_all_runs_go fetchPage per_page fuel (page + 1) rem2 accY2 (accP ++ [page])

/-- The exporter's `fetch_all_runs(max_runs)` (exporter.py lines 171-190),
run to exhaustion: `per_page = min(100, max_runs)`, starting at page 1. -/
def fetch_all_runs (fetchPage : Nat → Nat → Except PyError (List RawRun))
    (max_runs : Nat) : FetchResult :=
  fetch_all_runs_go fetchPage (min 100 max_runs) max_runs 1 max_runs [] []

/-- State of the poll loop: the `processed_runs` dedup set (as the list of
its members, newest first) and the number of push attempts made so far (the
index into `Env.pushOutcome`). -/
structure LoopState where
  processed : List String
  pushes : Nat
  deriving DecidableEq, Repr

/-- `str(run["id"])` — the dedup key and exemplar value. -/
def runIdStr (r : RunRecord) : String := toString r.id

/-- `int(run["created_at"].timestamp() * 1000)` (exporter.py lines 195, 221):
epoch milliseconds, truncated toward zero. -/
def created_ts_ms (r : RunRecord) : Int := Int.tdiv r.created_at 1000

/-- The body of the duration loop in `push_metrics` (exporter.py lines
220-237) for one yielded run: if its id is already in `processed_runs`,
`continue` (no push); otherwise **first** add the id to the set, then push
the duration sample. -/
def processOneRun (pushOutcome : Nat → HttpOutcome) (st : LoopState)
    (r : RunRecord) : LoopState × List Event :=
  let run_id := runIdStr r
  if st.processed.contains run_id then (st, [])
  else
    let st1 : LoopState := { st with processed := run_id :: st.processed }
    let ok := push_result (pushOutcome st1.pushes)
    ({ st1 with pushes := st1.pushes + 1 },
     [.durPush run_id (created_ts_ms r) r.duration_seconds ok])

/-- The duration loop of `push_metrics` over the runs the generator
yielded. -/
def processParsedRuns (po : Nat → HttpOutcome) :
    LoopState → List RunRecord → LoopState × List Event
  | st, [] => (st, [])
  | st, r :: rs =>
    let p1 := processOneRun po st r
    let p2 := processParsedRuns po p1.1 rs
    (p2.1, p1.2 ++ p2.2)

/-- The body of `backfill_runs` (exporter.py lines 193-206) over the yielded
runs: push a duration sample per run, with no dedup check.  `k` is the
running push-attempt index. -/
def backfillRunsEvents (po : Nat → HttpOutcome) :
    Nat → List RunRecord → Nat × List Event
  | k, [] => (k, [])
  | k, r :: rs =>
    let ok := push_result (po k)
    let p := backfillRunsEvents po (k + 1) rs
    (p.1, .durPush (runIdStr r) (created_ts_ms r) r.duration_seconds ok :: p.2)

/-- The per-status count phase of one poll iteration (exporter.py lines
214-218): for each status, fetch the count — **any fetch error propagates
immediately, uncaught** — then push a count sample, whose Bool result is
discarded. -/
def statusPhase (env : Env) :
    List String → LoopState → LoopState × List Event × Option PyError
  | [], st => (st, [], none)
  | s :: rest, st =>
    match env.countResult s with
    | .error e => (st, [], some e)
    | .ok n =>
      let ok := push_result (env.pushOutcome st.pushes)
      let st1 : LoopState := { st with pushes := st.pushes + 1 }
      let p := statusPhase env rest st1
      (p.1, .countPush s n ok :: p.2.1, p.2.2)

/-- One iteration of the `while True:` body of `push_metrics` (exporter.py
lines 212-239): the six per-status count pushes, then the deduplicated
duration pushes over `fetch_all_runs(max_runs=100)`.  A count-fetch error
aborts the iteration there; a fetch/parse error in the duration phase
surfaces after the pushes for the runs yielded before it. -/
def pollIteration (env : Env) (st : LoopState) :
    LoopState × List Event × Option PyError :=
  match statusPhase env WORKFLOW_STATUSES st with
  | (st1, evs1, some e) => (st1, evs1, some e)
  | (st1, evs1, none) =>
    let fr := fetch_all_runs env.fetchPage 100
    let p := processParsedRuns env.pushOutcome st1 fr.yields
    (p.1, evs1 ++ p.2, fr.err)

/-- `push_metrics` run for at most `fuel` iterations from state `st`
(exporter.py lines 209-239): there is no `try`/`except` in the loop body, so
the first propagating error ends the loop (and the process); with no error
the loop only ever stops because the fuel is spent (`err = none` means
"still running"). -/
def push_metrics_fuel (env : Env) : Nat → LoopState → List Event × Option PyError
  | 0, _ => ([], none)
  | fuel + 1, st =>
    match pollIteration env st with
    | (_, evs, some e) => (evs, some e)
    | (st1, evs, none) =>
      let p := push_metrics_fuel env fuel st1
      (evs ++ p.1, p.2)

/-- `push_metrics()` (exporter.py line 211 creates the fresh empty
`processed_runs` set) run for `fuel` iterations; `startPushes` threads the
process-wide push-attempt index. -/
def push_metrics_trace (env : Env) (fuel startPushes : Nat) :
    List Event × Option PyError :=
  push_metrics_fuel env fuel ⟨[], startPushes⟩

/-- `backfill_runs(count=BACKFILL_COUNT)` (exporter.py lines 193-206):
consume `fetch_all_runs(max_runs=10000)`, pushing one duration sample per
yielded run; an upstream fetch/parse error propagates (after the pushes for
already-yielded runs). -/
def backfillTrace (env : Env) (startPushes : Nat) :
    Nat × List Event × Option PyError :=
  let fr := fetch_all_runs env.fetchPage BACKFILL_COUNT
  let p := backfillRunsEvents env.pushOutcome startPushes fr.yields
  (p.1, p.2, fr.err)

/-- `main()` (exporter.py lines 242-246): if `"--backfill"` is among the
arguments, run `backfill_runs` first — and then, with **no** `else`,
unconditionally call `push_metrics()`, which creates a fresh empty dedup
set.  A backfill error propagates and ends the process before the poll
loop. -/
def mainTrace (argv : List String) (env : Env) (fuel : Nat) :
    List Event × Option PyError :=
  if argv.contains "--backfill" then
    match backfillTrace env 0 with
    | (_, bevs, some e) => (bevs, some e)
    | (k, bevs, none) =>
      let p := push_metrics_trace env fuel k
      (bevs ++ p.1, p.2)
  else push_metrics_trace env fuel 0

namespace Analyzer

/-- The `while len(all_runs) < max_runs:` loop of the analyzer's
`fetch_all_runs` (gh-ci-analyzer/main.py lines 77-89), with the fetched
pages logged: stop once enough runs are accumulated; fetch the page; stop on
an empty page; extend the accumulator; stop when the page was **short**
(`len(runs) < per_page`), else advance to the next page. -/
def fetch_all_runs_go (fetchPage : Nat → Nat → List RawRun)
    (per_page max_runs : Nat) :
    (fuel : Nat) → (page : Nat) → List RawRun → List Nat →
    List RawRun × List Nat
  | 0, _, all, accP => (all, accP)
  | fuel + 1, page, all, accP =>
    if max_runs ≤ all.length then (all, accP)
    else
      match fetchPage per_page page with
      | [] => (all, accP ++ [page])
      | r :: rs =>
        if (r :: rs).length < per_page then (all ++ r :: rs, accP ++ [page])
        else fetch_all_runs_go fetchPage per_page max_runs fuel (page + 1)
          (all ++ r :: rs) (accP ++ [page])

/-- The analyzer's `fetch_all_runs(max_runs)` (gh-ci-analyzer/main.py lines
71-91): `per_page = min(100, max_runs)`, start at page 1 with an empty
accumulator, and return `all_runs[:max_runs]`.  `fuel` is a structural
bound on the number of page fetches; every non-final iteration grows the
accumulator by at least one run, so `fuel = max_runs` makes the fuel-0 base
case unreachable. -/
def fetch_all_runs (fetchPage : Nat → Nat → List RawRun) (max_runs : Nat) :
    List RawRun × List Nat :=
  let p := fetch_all_runs_go fetchPage (min 100 max_runs) max_runs max_runs 1 [] []
  (p.1.take max_runs, p.2)

end Analyzer

/-- A well-formed raw run with the given id and timestamps. -/
def mkRaw (i : Nat) (c u : String) : RawRun :=
  { id := i, run_number := i, status := "completed", conclusion := some "success",
    created_at := some c, updated_at := some u,
    html_url := "u", head_branch := "b", head_sha := "0123456789abcdef" }

/-- Run 7: created 2024-01-15T10:00:00Z, updated 5m30s later. -/
def raw7 : RawRun := mkRaw 7 "2024-01-15T10:00:00Z" "2024-01-15T10:05:30Z"

/-- What `parse_run_data` yields on `raw7`. -/
def run7rec : RunRecord :=
  { id := 7, run_number := 7, status := "completed", conclusion := some "success",
    created_at := 1705312800000000, created_aware := true,
    updated_at := 1705313130000000, updated_aware := true,
    duration_seconds := 330, duration_minutes := Rat.divInt 11 2,
    html_url := "u", head_branch := "b", head_sha := "01234567" }

/-- A GitHub API whose page 1 holds exactly `raw7` and whose later pages are
empty. -/
def pageOneRaw7 : Nat → Nat → Except PyError (List RawRun) :=
  fun _ p => if p = 1 then .ok [raw7] else .ok []

/-- Environment in which every push attempt fails with a transport error,
counts are all 0, and the completed-runs window holds exactly `raw7`. -/
def envPushFail : Env :=
  { countResult := fun _ => .ok 0, fetchPage := pageOneRaw7,
    pushOutcome := fun _ => .transportError }

/-- Healthy environment: every count succeeds with 3, every push gets a 204,
and the completed-runs window holds exactly `raw7`. -/
def envOk : Env :=
  { countResult := fun _ => .ok 3, fetchPage := pageOneRaw7,
    pushOutcome := fun _ => .status 204 }

/-- Run ids of the *successful* duration pushes. -/
def durOkIds (evs : List Event) : List String :=
  evs.filterMap fun e => match e with
    | .durPush i _ _ true => some i
    | _ => none

/-- Environment whose count fetch fails for every status except
"completed" (e.g. the GitHub API starts returning 500s). -/
def envCountFail : Env :=
  { countResult := fun s => if s = "completed" then .ok 5 else .error (.httpError 500),
    fetchPage := fun _ _ => .ok [], pushOutcome := fun _ => .status 204 }

/-- A record whose `created_at` does not parse. -/
def rawBad : RawRun := mkRaw 8 "not-a-date" "2024-01-15T10:00:00Z"

/-- Run 8: `updated_at` is one hour **before** `created_at`. -/
def raw8neg : RawRun := mkRaw 8 "2024-01-15T10:00:00Z" "2024-01-15T09:00:00Z"

/-- What `parse_run_data` yields on `raw8neg`: a record with a negative
duration, accepted without complaint. -/
def rec8neg : RunRecord :=
  { id := 8, run_number := 8, status := "completed", conclusion := some "success",
    created_at := 1705312800000000, created_aware := true,
    updated_at := 1705309200000000, updated_aware := true,
    duration_seconds := -3600, duration_minutes := -60,
    html_url := "u", head_branch := "b", head_sha := "01234567" }

/-- A good record following the malformed one in the same page. -/
def rawAfter : RawRun := mkRaw 9 "2024-01-15T11:00:00Z" "2024-01-15T11:10:00Z"

/-- A page holding a good record, then a malformed one, then another good
one. -/
def pageMalformed : Nat → Nat → Except PyError (List RawRun) :=
  fun _ p => if p = 1 then .ok [raw7, rawBad, rawAfter] else .ok []

def envEmptyOk : Env :=
  { countResult := fun _ => .ok 0, fetchPage := fun _ _ => .ok [],
    pushOutcome := fun _ => .status 204 }

def envBackfillErr : Env :=
  { countResult := fun _ => .ok 0, fetchPage := fun _ _ => .error (.httpError 500),
    pushOutcome := fun _ => .status 204 }

theorem parse_raw7 : parse_run_data raw7 = .ok run7rec := by
  have h1 : fromisoformat (replaceZ "2024-01-15T10:00:00Z") =
      some (1705312800000000, true) := by decide
  have h2 : fromisoformat (replaceZ "2024-01-15T10:05:30Z") =
      some (1705313130000000, true) := by decide
  simp [parse_run_data, raw7, mkRaw, h1, h2, run7rec]
  norm_num [Rat.divInt_eq_div]
  decide

theorem pageYield_raw7 (n : Nat) (h : n ≠ 0) :
    pageYield [raw7] n [] = ([run7rec], n - 1, none) := by
  simp [pageYield, h, parse_raw7]

theorem fetch_pageOneRaw7 :
    fetch_all_runs pageOneRaw7 100 = ⟨[run7rec], [1, 2], none⟩ := by
  simp [fetch_all_runs, fetch_all_runs_go, pageOneRaw7, pageYield_raw7]

theorem fetch_pageOneRaw7_backfill :
    fetch_all_runs pageOneRaw7 BACKFILL_COUNT = ⟨[run7rec], [1, 2], none⟩ := by
  simp [fetch_all_runs, fetch_all_runs_go, pageOneRaw7, BACKFILL_COUNT, pageYield_raw7]

theorem iter1_envPushFail : pollIteration envPushFail ⟨[], 0⟩ =
    (⟨["7"], 7⟩,
     [.countPush "completed" 0 false, .countPush "cancelled" 0 false,
      .countPush "failure" 0 false, .countPush "success" 0 false,
      .countPush "timed_out" 0 false, .countPush "in_progress" 0 false,
      .durPush "7" 1705312800000 330 false], none) := by
  have hs : statusPhase envPushFail WORKFLOW_STATUSES ⟨[], 0⟩ =
      (⟨[], 6⟩,
       [.countPush "completed" 0 false, .countPush "cancelled" 0 false,
        .countPush "failure" 0 false, .countPush "success" 0 false,
        .countPush "timed_out" 0 false, .countPush "in_progress" 0 false], none) := by
    decide
  have hpp : processParsedRuns envPushFail.pushOutcome ⟨[], 6⟩ [run7rec] =
      (⟨["7"], 7⟩, [.durPush "7" 1705312800000 330 false]) := by decide
  have hf : envPushFail.fetchPage = pageOneRaw7 := rfl
  simp only [pollIteration, hs, hf, fetch_pageOneRaw7, hpp]
  decide

theorem iter2_envPushFail : pollIteration envPushFail ⟨["7"], 7⟩ =
    (⟨["7"], 13⟩,
     [.countPush "completed" 0 false, .countPush "cancelled" 0 false,
      .countPush "failure" 0 false, .countPush "success" 0 false,
      .countPush "timed_out" 0 false, .countPush "in_progress" 0 false], none) := by
  have hs : statusPhase envPushFail WORKFLOW_STATUSES ⟨["7"], 7⟩ =
      (⟨["7"], 13⟩,
       [.countPush "completed" 0 false, .countPush "cancelled" 0 false,
        .countPush "failure" 0 false, .countPush "success" 0 false,
        .countPush "timed_out" 0 false, .countPush "in_progress" 0 false], none) := by
    decide
  have hpp : processParsedRuns envPushFail.pushOutcome ⟨["7"], 13⟩ [run7rec] =
      (⟨["7"], 13⟩, []) := by decide
  have hf : envPushFail.fetchPage = pageOneRaw7 := rfl
  simp only [pollIteration, hs, hf, fetch_pageOneRaw7, hpp]
  decide

theorem trace_envPushFail : push_metrics_trace envPushFail 2 0 =
    ([.countPush "completed" 0 false, .countPush "cancelled" 0 false,
      .countPush "failure" 0 false, .countPush "success" 0 false,
      .countPush "timed_out" 0 false, .countPush "in_progress" 0 false,
      .durPush "7" 1705312800000 330 false,
      .countPush "completed" 0 false, .countPush "cancelled" 0 false,
      .countPush "failure" 0 false, .countPush "success" 0 false,
      .countPush "timed_out" 0 false, .countPush "in_progress" 0 false], none) := by
  simp only [push_metrics_trace, show (2 : Nat) = 1 + 1 from rfl, push_metrics_fuel,
    iter1_envPushFail, iter2_envPushFail]
  decide

theorem iter1_envOk : pollIteration envOk ⟨[], 1⟩ =
    (⟨["7"], 8⟩,
     [.countPush "completed" 3 true, .countPush "cancelled" 3 true,
      .countPush "failure" 3 true, .countPush "success" 3 true,
      .countPush "timed_out" 3 true, .countPush "in_progress" 3 true,
      .durPush "7" 1705312800000 330 true], none) := by
  have hs : statusPhase envOk WORKFLOW_STATUSES ⟨[], 1⟩ =
      (⟨[], 7⟩,
       [.countPush "completed" 3 true, .countPush "cancelled" 3 true,
        .countPush "failure" 3 true, .countPush "success" 3 true,
        .countPush "timed_out" 3 true, .countPush "in_progress" 3 true], none) := by
    decide
  have hpp : processParsedRuns envOk.pushOutcome ⟨[], 7⟩ [run7rec] =
      (⟨["7"], 8⟩, [.durPush "7" 1705312800000 330 true]) := by decide
  have hf : envOk.fetchPage = pageOneRaw7 := rfl
  simp only [pollIteration, hs, hf, fetch_pageOneRaw7, hpp]
  decide

/-- The loop with no fuel left: no events, still running. -/
theorem push_metrics_fuel_zero (env : Env) (st : LoopState) :
    push_metrics_fuel env 0 st = ([], none) := rfl

/-- A loop step whose iteration completed without error: its events are
followed by those of the remaining iterations, started from its final
state — the loop proceeds. -/
theorem push_metrics_fuel_step_ok (env : Env) (fuel : Nat) (st st1 : LoopState)
    (evs : List Event) (h : pollIteration env st = (st1, evs, none)) :
    push_metrics_fuel env (fuel + 1) st =
      (evs ++ (push_metrics_fuel env fuel st1).1, (push_metrics_fuel env fuel st1).2) := by
  rw [push_metrics_fuel, h]

/-- A loop step whose iteration raised: the loop ends with that error,
whatever fuel remains. -/
theorem push_metrics_fuel_step_err (env : Env) (fuel : Nat) (st st1 : LoopState)
    (evs : List Event) (e : PyError) (h : pollIteration env st = (st1, evs, some e)) :
    push_metrics_fuel env (fuel + 1) st = (evs, some e) := by
  rw [push_metrics_fuel, h]

/-- `main()` without the backfill flag runs only the poll loop. -/
theorem mainTrace_no_backfill (env : Env) (fuel : Nat) :
    mainTrace [] env fuel = push_metrics_trace env fuel 0 := rfl

/-- `main()` with the backfill flag, backfill succeeding: the backfill trace
is followed, unconditionally, by the poll loop's trace, and the poll loop
starts from a fresh empty dedup ledger. -/
theorem mainTrace_backfill_ok (env : Env) (fuel k : Nat) (bevs : List Event)
    (h : backfillTrace env 0 = (k, bevs, none)) :
    mainTrace ["--backfill"] env fuel =
      (bevs ++ (push_metrics_fuel env fuel ⟨[], k⟩).1,
       (push_metrics_fuel env fuel ⟨[], k⟩).2) := by
  rw [mainTrace, if_pos (by decide), h]
  rfl

/-- `main()` with the backfill flag, backfill failing: the error propagates
and the poll loop is never reached. -/
theorem mainTrace_backfill_err (env : Env) (fuel k : Nat) (bevs : List Event)
    (e : PyError) (h : backfillTrace env 0 = (k, bevs, some e)) :
    mainTrace ["--backfill"] env fuel = (bevs, some e) := by
  rw [mainTrace, if_pos (by decide), h]

theorem backfillTrace_envOk : backfillTrace envOk 0 =
    (1, [.durPush "7" 1705312800000 330 true], none) := by
  have hf : envOk.fetchPage = pageOneRaw7 := rfl
  simp only [backfillTrace, hf, fetch_pageOneRaw7_backfill]
  decide

theorem mainTrace_envOk_backfill : mainTrace ["--backfill"] envOk 1 =
    ([.durPush "7" 1705312800000 330 true,
      .countPush "completed" 3 true, .countPush "cancelled" 3 true,
      .countPush "failure" 3 true, .countPush "success" 3 true,
      .countPush "timed_out" 3 true, .countPush "in_progress" 3 true,
      .durPush "7" 1705312800000 330 true], none) := by
  rw [mainTrace_backfill_ok envOk 1 1 _ backfillTrace_envOk,
    push_metrics_fuel_step_ok envOk 0 _ _ _ iter1_envOk, push_metrics_fuel_zero]
  decide

theorem statusPhase_processed (env : Env) :
    ∀ (l : List String) (st : LoopState),
      (statusPhase env l st).1.processed = st.processed := by
  intro l
  induction l with
  | nil => intro st; rfl
  | cons s rest ih =>
    intro st
    simp only [statusPhase]
    cases env.countResult s with
    | error e => rfl
    | ok n => simpa using ih _

theorem statusPhase_ok (env : Env) :
    ∀ (l : List String) (st : LoopState),
      (∀ s ∈ l, ∃ n, env.countResult s = .ok n) →
      (statusPhase env l st).2.2 = none ∧
        countStatuses (statusPhase env l st).2.1 = l := by
  intro l
  induction l with
  | nil => intro st _; exact ⟨rfl, rfl⟩
  | cons s rest ih =>
    intro st h
    obtain ⟨n, hn⟩ := h s (List.mem_cons_self s rest)
    have hrest := ih ({ st with pushes := st.pushes + 1 })
      fun t ht => h t (List.mem_cons_of_mem s ht)
    simp only [statusPhase, hn, countStatuses, List.filterMap_cons]
    simpa [countStatuses] using hrest

theorem durIds_statusPhase (env : Env) :
    ∀ (l : List String) (st : LoopState),
      durIds (statusPhase env l st).2.1 = [] := by
  intro l
  induction l with
  | nil => intro st; rfl
  | cons s rest ih =>
    intro st
    simp only [statusPhase]
    cases env.countResult s with
    | error e => rfl
    | ok n => simpa [durIds] using ih _

theorem processOneRun_seen (po : Nat → HttpOutcome) (st : LoopState) (r : RunRecord)
    (h : runIdStr r ∈ st.processed) :
    processOneRun po st r = (st, []) := by
  simp [processOneRun, h]

theorem processOneRun_new (po : Nat → HttpOutcome) (st : LoopState) (r : RunRecord)
    (h : runIdStr r ∉ st.processed) :
    processOneRun po st r =
      ({ processed := runIdStr r :: st.processed, pushes := st.pushes + 1 },
       [.durPush (runIdStr r) (created_ts_ms r) r.duration_seconds
          (push_result (po st.pushes))]) := by
  simp [processOneRun, h]

theorem durIds_append (a b : List Event) : durIds (a ++ b) = durIds a ++ durIds b := by
  simp [durIds]

/-- The dedup ledger at work: over any window of parsed runs, a run id is
pushed exactly once if it appears in the window and is not yet in the
ledger, and zero times otherwise. -/
theorem durCount_processParsedRuns (po : Nat → HttpOutcome) :
    ∀ (rs : List RunRecord) (st : LoopState) (i : String),
      durCountFor i (processParsedRuns po st rs).2 =
        if (∃ r ∈ rs, runIdStr r = i) ∧ i ∉ st.processed then 1 else 0 := by
  intro rs
  induction rs with
  | nil => intro st i; simp [processParsedRuns, durCountFor, durIds]
  | cons r rest ih =>
    intro st i
    by_cases hseen : runIdStr r ∈ st.processed
    · rw [processParsedRuns, processOneRun_seen po st r hseen]
      simp only [List.nil_append]
      rw [ih st i]
      by_cases hri : runIdStr r = i
      · subst hri
        simp [hseen]
      · simp only [List.mem_cons, exists_eq_or_imp]
        simp [hri]
    · rw [processParsedRuns, processOneRun_new po st r hseen]
      simp only [durCountFor, durIds_append]
      rw [List.count_append]
      have hrec := ih ⟨runIdStr r :: st.processed, st.pushes + 1⟩ i
      simp only [durCountFor] at hrec
      rw [hrec]
      by_cases hri : runIdStr r = i
      · subst hri
        simp [durIds, List.count_cons, hseen]
      · have hir : ¬ i = runIdStr r := fun h => hri h.symm
        simp [durIds, List.count_cons, hri, hir, List.mem_cons]

/-- Membership in the ledger after a window: the old members plus exactly
the ids pushed in the window. -/
theorem processParsedRuns_processed (po : Nat → HttpOutcome) :
    ∀ (rs : List RunRecord) (st : LoopState) (i : String),
      (i ∈ (processParsedRuns po st rs).1.processed ↔
        i ∈ st.processed ∨ i ∈ durIds (processParsedRuns po st rs).2) := by
  intro rs
  induction rs with
  | nil => intro st i; simp [processParsedRuns, durIds]
  | cons r rest ih =>
    intro st i
    by_cases hseen : runIdStr r ∈ st.processed
    · rw [processParsedRuns, processOneRun_seen po st r hseen]
      simpa using ih st i
    · rw [processParsedRuns, processOneRun_new po st r hseen]
      simp only [durIds_append]
      have := ih ⟨runIdStr r :: st.processed, st.pushes + 1⟩ i
      simp only [List.mem_cons] at this ⊢
      rw [this]
      simp [durIds]
      tauto

theorem durIds_nodup_processParsedRuns (po : Nat → HttpOutcome)
    (rs : List RunRecord) (st : LoopState) :
    (durIds (processParsedRuns po st rs).2).Nodup := by
  rw [List.nodup_iff_count_le_one]
  intro i
  have h := durCount_processParsedRuns po rs st i
  simp only [durCountFor] at h
  rw [h]
  split <;> omega

theorem countStatuses_processParsedRuns (po : Nat → HttpOutcome) :
    ∀ (rs : List RunRecord) (st : LoopState),
      countStatuses (processParsedRuns po st rs).2 = [] := by
  intro rs
  induction rs with
  | nil => intro st; rfl
  | cons r rest ih =>
    intro st
    by_cases hseen : runIdStr r ∈ st.processed
    · rw [processParsedRuns, processOneRun_seen po st r hseen]
      simpa using ih st
    · rw [processParsedRuns, processOneRun_new po st r hseen]
      simpa [countStatuses] using ih ⟨runIdStr r :: st.processed, st.pushes + 1⟩

theorem pollIteration_durCount (env : Env) (st : LoopState) (i : String) :
    durCountFor i (pollIteration env st).2.1 ≤ if i ∈ st.processed then 0 else 1 := by
  rw [pollIteration]
  rcases hs : statusPhase env WORKFLOW_STATUSES st with ⟨st1, evs1, err⟩
  have hd1 : durIds evs1 = [] := by
    have := durIds_statusPhase env WORKFLOW_STATUSES st
    rw [hs] at this
    exact this
  have hp1 : st1.processed = st.processed := by
    have := statusPhase_processed env WORKFLOW_STATUSES st
    rw [hs] at this
    exact this
  cases err with
  | some e =>
    simp only [durCountFor, hd1, List.count_nil]
    split <;> omega
  | none =>
    simp only [durCountFor, durIds_append, List.count_append, hd1, List.count_nil]
    have h := durCount_processParsedRuns env.pushOutcome
      (fetch_all_runs env.fetchPage 100).yields st1 i
    simp only [durCountFor] at h
    rw [hp1] at h
    rw [h]
    split <;> split <;> simp_all

theorem pollIteration_mem_mono (env : Env) (st : LoopState) (i : String)
    (h : i ∈ st.processed) : i ∈ (pollIteration env st).1.processed := by
  rw [pollIteration]
  rcases hs : statusPhase env WORKFLOW_STATUSES st with ⟨st1, evs1, err⟩
  have hp1 : st1.processed = st.processed := by
    have := statusPhase_processed env WORKFLOW_STATUSES st
    rw [hs] at this
    exact this
  cases err with
  | some e => simpa [hp1] using h
  | none =>
    simp only []
    rw [processParsedRuns_processed env.pushOutcome _ _ i, hp1]
    exact Or.inl h

theorem pollIteration_count_pos_mem (env : Env) (st : LoopState) (i : String)
    (h : 1 ≤ durCountFor i (pollIteration env st).2.1) :
    i ∈ (pollIteration env st).1.processed := by
  rw [pollIteration] at *
  rcases hs : statusPhase env WORKFLOW_STATUSES st with ⟨st1, evs1, err⟩
  rw [hs] at h
  have hd1 : durIds evs1 = [] := by
    have := durIds_statusPhase env WORKFLOW_STATUSES st
    rw [hs] at this
    exact this
  cases err with
  | some e =>
    simp only [durCountFor, hd1, List.count_nil] at h
    omega
  | none =>
    simp only [durCountFor, durIds_append, List.count_append, hd1, List.count_nil] at h
    simp only []
    rw [processParsedRuns_processed env.pushOutcome _ _ i]
    right
    exact List.count_pos_iff.mp (by omega)

theorem push_metrics_fuel_durCount (env : Env) :
    ∀ (fuel : Nat) (st : LoopState) (i : String),
      durCountFor i (push_metrics_fuel env fuel st).1 ≤
        if i ∈ st.processed then 0 else 1 := by
  intro fuel
  induction fuel with
  | zero =>
    intro st i
    rw [push_metrics_fuel_zero]
    simp only [durCountFor, durIds, List.filterMap_nil, List.count_nil]
    split <;> omega
  | succ fuel ih =>
    intro st i
    rcases hit : pollIteration env st with ⟨st1, evs, err⟩
    have hcnt := pollIteration_durCount env st i
    rw [hit] at hcnt
    cases err with
    | some e =>
      rw [push_metrics_fuel_step_err env fuel st st1 evs e hit]
      exact hcnt
    | none =>
      rw [push_metrics_fuel_step_ok env fuel st st1 evs hit]
      simp only [durCountFor, durIds_append, List.count_append]
      have hrest := ih st1 i
      simp only [durCountFor] at hrest hcnt ⊢
      by_cases hm : i ∈ st.processed
      · have hm1 : i ∈ st1.processed := by
          have := pollIteration_mem_mono env st i hm
          rw [hit] at this
          exact this
        rw [if_pos hm] at hcnt ⊢
        rw [if_pos hm1] at hrest
        omega
      · rw [if_neg hm] at hcnt ⊢
        by_cases hc : 1 ≤ (durIds evs).count i
        · have hm1 : i ∈ st1.processed := by
            have := pollIteration_count_pos_mem env st i
              (by rw [hit]; simpa [durCountFor] using hc)
            rw [hit] at this
            exact this
          rw [if_pos hm1] at hrest
          omega
        · split at hrest <;> omega

theorem pageYield_len :
    ∀ (runs : List RawRun) (rem : Nat) (acc : List RunRecord),
      (pageYield runs rem acc).1.length + (pageYield runs rem acc).2.1 ≤
        acc.length + rem := by
  intro runs
  induction runs with
  | nil => intro rem acc; simp [pageYield]
  | cons r rest ih =>
    intro rem acc
    rw [pageYield]
    by_cases h0 : rem = 0
    · simp [h0]
    · rw [if_neg h0]
      cases parse_run_data r with
      | error e => simp
      | ok rec =>
        simp only []
        have := ih (rem - 1) (acc ++ [rec])
        simp only [List.length_append, List.length_cons, List.length_nil] at this
        omega

theorem fetch_go_yields_le (F : Nat → Nat → Except PyError (List RawRun)) (pp : Nat) :
    ∀ (fuel page rem : Nat) (accY : List RunRecord) (accP : List Nat),
      (fetch_all_runs_go F pp fuel page rem accY accP).yields.length ≤
        accY.length + rem := by
  intro fuel
  induction fuel with
  | zero => intro page rem accY accP; simp [fetch_all_runs_go]
  | succ fuel ih =>
    intro page rem accY accP
    rw [fetch_all_runs_go]
    by_cases h0 : rem = 0
    · simp [h0]
    · rw [if_neg h0]
      cases hF : F pp page with
      | error e => simp
      | ok runs =>
        cases runs with
        | nil => simp
        | cons r rs =>
          simp only []
          rcases hpy : pageYield (r :: rs) rem accY with ⟨accY2, rem2, err⟩
          have hlen := pageYield_len (r :: rs) rem accY
          rw [hpy] at hlen
          simp only [] at hlen
          cases err with
          | some e =>
            simp only []
            omega
          | none =>
            simp only []
            have := ih (page + 1) rem2 accY2 (accP ++ [page])
            omega

/-- The exporter's `fetch_all_runs` yields at most `max_runs` records. -/
theorem fetch_all_runs_yields_le (F : Nat → Nat → Except PyError (List RawRun))
    (max_runs : Nat) :
    (fetch_all_runs F max_runs).yields.length ≤ max_runs := by
  have := fetch_go_yields_le F (min 100 max_runs) max_runs 1 max_runs [] []
  simpa [fetch_all_runs] using this

namespace Analyzer

theorem go_pages (F : Nat → Nat → List RawRun) (pp mr : Nat) :
    ∀ (fuel page : Nat) (all : List RawRun) (accP : List Nat),
      (∀ k ∈ accP, k < page ∧ ((F pp k).length < pp → k + 1 ≠ page ∧ k + 1 ∉ accP)) →
      (∀ j ∈ (fetch_all_runs_go F pp mr fuel page all accP).2, j ∈ accP ∨ page ≤ j) ∧
      (∀ k ∈ (fetch_all_runs_go F pp mr fuel page all accP).2, (F pp k).length < pp →
        k + 1 ∉ (fetch_all_runs_go F pp mr fuel page all accP).2) := by
  intro fuel
  induction fuel with
  | zero =>
    intro page all accP pre
    rw [fetch_all_runs_go]
    constructor
    · intro j hj; exact Or.inl hj
    · intro k hk hshort
      exact ((pre k hk).2 hshort).2
  | succ fuel ih =>
    intro page all accP pre
    rw [fetch_all_runs_go]
    by_cases hfull : mr ≤ all.length
    · rw [if_pos hfull]
      constructor
      · intro j hj; exact Or.inl hj
      · intro k hk hshort
        exact ((pre k hk).2 hshort).2
    · rw [if_neg hfull]
      have base : (∀ j ∈ accP ++ [page], j ∈ accP ∨ page ≤ j) ∧
          (∀ k ∈ accP ++ [page], (F pp k).length < pp → k + 1 ∉ accP ++ [page]) := by
        constructor
        · intro j hj
          rcases List.mem_append.mp hj with h | h
          · exact Or.inl h
          · simp at h; omega
        · intro k hk hshort
          intro hk1
          rcases List.mem_append.mp hk with h | h
          · have hp := pre k h
            rcases List.mem_append.mp hk1 with h1 | h1
            · exact (hp.2 hshort).2 h1
            · simp at h1
              exact (hp.2 hshort).1 h1
          · simp at h
            rcases List.mem_append.mp hk1 with h1 | h1
            · have := (pre (k + 1) h1).1
              omega
            · simp at h1
              omega
      cases hF : F pp page with
      | nil => exact base
      | cons r rs =>
        simp only []
        by_cases hshortpage : (r :: rs).length < pp
        · rw [if_pos hshortpage]
          exact base
        · rw [if_neg hshortpage]
          have pre2 : ∀ k ∈ accP ++ [page], k < page + 1 ∧
              ((F pp k).length < pp → k + 1 ≠ page + 1 ∧ k + 1 ∉ accP ++ [page]) := by
            intro k hk
            rcases List.mem_append.mp hk with h | h
            · have hp := pre k h
              refine ⟨by omega, fun hs => ⟨by omega, ?_⟩⟩
              intro hk1
              rcases List.mem_append.mp hk1 with h1 | h1
              · exact (hp.2 hs).2 h1
              · simp at h1
                exact (hp.2 hs).1 h1
            · simp at h
              subst h
              refine ⟨by omega, fun hs => absurd hs ?_⟩
              rw [hF]
              exact hshortpage
          have hrec := ih (page + 1) (all ++ r :: rs) (accP ++ [page]) pre2
          constructor
          · intro j hj
            rcases hrec.1 j hj with h | h
            · rcases List.mem_append.mp h with h1 | h1
              · exact Or.inl h1
              · simp at h1; omega
            · omega
          · exact hrec.2

/-- The analyzer's fetch never requests page `k + 1` when page `k` came back
short, and returns at most `max_runs` records. -/
theorem fetch_all_runs_short_stop (F : Nat → Nat → List RawRun) (max_runs : Nat) :
    (Analyzer.fetch_all_runs F max_runs).1.length ≤ max_runs ∧
    (∀ k ∈ (Analyzer.fetch_all_runs F max_runs).2,
      (F (min 100 max_runs) k).length < min 100 max_runs →
      k + 1 ∉ (Analyzer.fetch_all_runs F max_runs).2) := by
  constructor
  · simp [Analyzer.fetch_all_runs]
  · have h := go_pages F (min 100 max_runs) max_runs max_runs 1 [] []
      (by intro k hk; simp at hk)
    intro k hk
    exact h.2 k hk

end Analyzer

theorem countStatuses_append (a b : List Event) :
    countStatuses (a ++ b) = countStatuses a ++ countStatuses b := by
  simp [countStatuses]

/-- When every page of the upstream is empty, the generator raises no
error (it stops at the first empty page). -/
theorem fetch_all_runs_empty_err (F : Nat → Nat → Except PyError (List RawRun))
    (h : ∀ pp p, F pp p = .ok []) (N : Nat) :
    (fetch_all_runs F N).err = none := by
  cases N with
  | zero => rfl
  | succ n =>
    rw [fetch_all_runs, fetch_all_runs_go]
    rw [if_neg (Nat.succ_ne_zero n), h]

/-- When every count fetch succeeds and the window fetch raises nothing, an
iteration completes without error and attempts all six statuses, regardless
of the push outcomes. -/
theorem pollIteration_ok (env : Env) (st : LoopState)
    (h1 : ∀ s ∈ WORKFLOW_STATUSES, ∃ n, env.countResult s = .ok n)
    (h2 : (fetch_all_runs env.fetchPage 100).err = none) :
    (pollIteration env st).2.2 = none ∧
      countStatuses (pollIteration env st).2.1 = WORKFLOW_STATUSES := by
  rcases hs : statusPhase env WORKFLOW_STATUSES st with ⟨st1, evs1, err⟩
  have hok := statusPhase_ok env WORKFLOW_STATUSES st h1
  rw [hs] at hok
  simp only [] at hok
  obtain ⟨herr, hcs⟩ := hok
  subst herr
  rw [pollIteration, hs]
  simp only []
  refine ⟨h2, ?_⟩
  rw [countStatuses_append, hcs, countStatuses_processParsedRuns, List.append_nil]

/-- In a healthy environment (counts succeed, pages empty) the poll loop
never stops: whatever the fuel, it is still running. -/
theorem push_metrics_fuel_healthy (env : Env)
    (h1 : ∀ s, ∃ n, env.countResult s = .ok n)
    (h2 : ∀ pp p, env.fetchPage pp p = .ok []) :
    ∀ (fuel : Nat) (st : LoopState), (push_metrics_fuel env fuel st).2 = none := by
  intro fuel
  induction fuel with
  | zero => intro st; rfl
  | succ fuel ih =>
    intro st
    have hok := (pollIteration_ok env st (fun s _ => h1 s)
      (fetch_all_runs_empty_err env.fetchPage h2 100)).1
    rcases hit : pollIteration env st with ⟨st1, evs, err⟩
    rw [hit] at hok
    simp only [] at hok
    subst hok
    rw [push_metrics_fuel_step_ok env fuel st st1 evs hit]
    exact ih st1

theorem parse_rawBad : parse_run_data rawBad = .error .valueError := rfl

theorem parse_raw8neg : parse_run_data raw8neg = .ok rec8neg := by
  have h1 : fromisoformat (replaceZ "2024-01-15T10:00:00Z") =
      some (1705312800000000, true) := by decide
  have h2 : fromisoformat (replaceZ "2024-01-15T09:00:00Z") =
      some (1705309200000000, true) := by decide
  simp [parse_run_data, raw8neg, mkRaw, h1, h2, rec8neg]
  norm_num
  decide

/-- The generator stops at the malformed record: the error propagates, the
good record after it is never yielded, and no further page is fetched. -/
theorem fetch_pageMalformed :
    fetch_all_runs pageMalformed 100 = ⟨[run7rec], [1], some .valueError⟩ := by
  have hpy : pageYield [raw7, rawBad, rawAfter] 100 [] =
      ([run7rec], 99, some .valueError) := by
    simp [pageYield, parse_raw7, parse_rawBad]
  simp [fetch_all_runs, fetch_all_runs_go, pageMalformed, hpy]

/-- With `max_runs = 2` (`per_page = 2`), page 1 returning a single run —
fewer than `per_page` — does not stop the exporter's generator: page 2 is
still fetched. -/
theorem fetch_pageOneRaw7_maxtwo :
    fetch_all_runs pageOneRaw7 2 = ⟨[run7rec], [1, 2], none⟩ := by
  simp [fetch_all_runs, fetch_all_runs_go, pageOneRaw7, pageYield_raw7]

/-- C1 (counterexample): with a GitHub API that 500s the count fetch for
every status but "completed", the poll loop pushes a single count sample and
dies with the propagated `HTTPError` — it does not attempt all six statuses
and no further iteration happens, contradicting the claim that a failed
count-fetch is caught and the loop proceeds on schedule. -/
theorem C1_counterexample :
    push_metrics_trace envCountFail 2 0 =
      ([.countPush "completed" 5 true], some (.httpError 500)) ∧
    countStatuses (push_metrics_trace envCountFail 2 0).1 ≠ WORKFLOW_STATUSES := by
  decide

/-- C1 (amended): failure semantics of the poll loop as implemented.  A
failed **push** is caught inside `push_metric_to_victoriametrics` and cannot
terminate the loop: whenever every count fetch succeeds and the window fetch
raises nothing, the iteration completes without error and attempts all six
statuses of the fixed vocabulary — regardless of the push outcomes — and the
loop proceeds to the next iteration.  But a failed count-fetch or a failed
window-fetch/parse propagates uncaught and terminates the loop with that
error. -/
theorem C1_loop_failure_semantics :
    (∀ (env : Env) (st : LoopState),
      (∀ s ∈ WORKFLOW_STATUSES, ∃ n, env.countResult s = .ok n) →
      (fetch_all_runs env.fetchPage 100).err = none →
      (pollIteration env st).2.2 = none ∧
        countStatuses (pollIteration env st).2.1 = WORKFLOW_STATUSES) ∧
    (∀ (env : Env) (fuel : Nat) (st st1 : LoopState) (evs : List Event),
      pollIteration env st = (st1, evs, none) →
      push_metrics_fuel env (fuel + 1) st =
        (evs ++ (push_metrics_fuel env fuel st1).1, (push_metrics_fuel env fuel st1).2)) ∧
    (∀ (env : Env) (fuel : Nat) (st st1 : LoopState) (evs : List Event) (e : PyError),
      pollIteration env st = (st1, evs, some e) →
      push_metrics_fuel env (fuel + 1) st = (evs, some e)) :=
  ⟨pollIteration_ok, push_metrics_fuel_step_ok, push_metrics_fuel_step_err⟩

theorem C1_witness :
    ((pollIteration envOk ⟨[], 0⟩).2.2 = none ∧
      countStatuses (pollIteration envOk ⟨[], 0⟩).2.1 = WORKFLOW_STATUSES) ∧
    push_metrics_fuel envCountFail (0 + 1) ⟨[], 0⟩ =
      ([.countPush "completed" 5 true], some (.httpError 500)) := by
  refine ⟨C1_loop_failure_semantics.1 envOk ⟨[], 0⟩ (fun s _ => ⟨3, rfl⟩) ?_,
    C1_loop_failure_semantics.2.2 envCountFail 0 ⟨[], 0⟩ ⟨[], 1⟩
      [.countPush "completed" 5 true] (.httpError 500) (by decide)⟩
  rw [show envOk.fetchPage = pageOneRaw7 from rfl, fetch_pageOneRaw7]

/-- C2 (counterexample): with every push failing at the transport level, run
7's id is in the dedup ledger right after its first processing (it is marked
seen *before* the push, not after), its duration sample is push-attempted
exactly once over two iterations — the failed push is never retried — and no
successful duration push ever happens.  This contradicts the claimed
push-first/mark-after order and the at-least-once delivery guarantee. -/
theorem C2_counterexample :
    "7" ∈ (pollIteration envPushFail ⟨[], 0⟩).1.processed ∧
    durCountFor "7" (push_metrics_trace envPushFail 2 0).1 = 1 ∧
    durOkIds (push_metrics_trace envPushFail 2 0).1 = [] := by
  refine ⟨?_, ?_, ?_⟩
  · rw [iter1_envPushFail]; decide
  · rw [trace_envPushFail]; decide
  · rw [trace_envPushFail]; decide

/-- C2 (amended): for every run not already in the dedup ledger, the loop
body **first** adds the run's id to the ledger and then pushes the duration
sample, whose success Bool is discarded; consequently a run whose push
failed is already marked seen, and re-processing it is a no-op — delivery of
a duration sample is at-most-once per process lifetime, not
at-least-once. -/
theorem C2_mark_seen_before_push :
    (∀ (po : Nat → HttpOutcome) (st : LoopState) (r : RunRecord),
      runIdStr r ∉ st.processed →
      runIdStr r ∈ (processOneRun po st r).1.processed ∧
      (processOneRun po st r).2 =
        [.durPush (runIdStr r) (created_ts_ms r) r.duration_seconds
          (push_result (po st.pushes))]) ∧
    (∀ (po2 : Nat → HttpOutcome) (st : LoopState) (r : RunRecord),
      runIdStr r ∈ st.processed → processOneRun po2 st r = (st, [])) := by
  constructor
  · intro po st r h
    rw [processOneRun_new po st r h]
    exact ⟨List.mem_cons_self _ _, rfl⟩
  · exact processOneRun_seen

theorem C2_witness :
    "7" ∈ (processOneRun (fun _ => .transportError) ⟨[], 0⟩ run7rec).1.processed ∧
    (processOneRun (fun _ => .transportError) ⟨[], 0⟩ run7rec).2 =
      [.durPush "7" 1705312800000 330 false] := by
  have h := C2_mark_seen_before_push.1 (fun _ => .transportError) ⟨[], 0⟩ run7rec
    (List.not_mem_nil _)
  have hid : runIdStr run7rec = "7" := by decide
  refine ⟨by rw [← hid]; exact h.1, ?_⟩
  rw [h.2]
  decide

/-- C3 (counterexample): the exporter's `fetch_all_runs(max_runs=2)`
(`per_page = 2`) fetches page 2 even though page 1 returned only one item —
fewer than `per_page` — because this version stops only on an empty page or
an exhausted budget, contradicting the claim that no fetch for page k+1 is
issued after a short page k. -/
theorem C3_counterexample :
    (fetch_all_runs pageOneRaw7 2).pages = [1, 2] ∧
    pageOneRaw7 (min 100 2) 1 = .ok [raw7] ∧ [raw7].length < min 100 2 := by
  refine ⟨?_, rfl, by decide⟩
  rw [fetch_pageOneRaw7_maxtwo]

/-- C3 (amended): both `fetch_all_runs` variants yield at most N items for
every N.  The analyzer's version (gh-ci-analyzer/main.py) also never issues
a fetch for page k+1 when page k returned fewer than `per_page` items; the
exporter's version has no short-page check and stops only on an empty page
or after N items. -/
theorem C3_pagination_bounds :
    (∀ (F : Nat → Nat → Except PyError (List RawRun)) (N : Nat),
      (fetch_all_runs F N).yields.length ≤ N) ∧
    (∀ (F : Nat → Nat → List RawRun) (N : Nat),
      (Analyzer.fetch_all_runs F N).1.length ≤ N ∧
      ∀ k ∈ (Analyzer.fetch_all_runs F N).2,
        (F (min 100 N) k).length < min 100 N →
        k + 1 ∉ (Analyzer.fetch_all_runs F N).2) :=
  ⟨fetch_all_runs_yields_le, Analyzer.fetch_all_runs_short_stop⟩

theorem C3_witness :
    (fetch_all_runs (fun _ _ => .ok []) 5).yields.length ≤ 5 ∧
    (Analyzer.fetch_all_runs (fun _ _ => []) 1).1.length ≤ 1 ∧
    (2 : Nat) ∉ (Analyzer.fetch_all_runs (fun _ _ => []) 1).2 :=
  ⟨C3_pagination_bounds.1 _ 5, (C3_pagination_bounds.2 _ 1).1,
    (C3_pagination_bounds.2 _ 1).2 1 (by decide) (by decide)⟩

/-- C4 (counterexample): with the backfill flag, a healthy environment and
one completed run, `main` does not exit after backfill: the trace continues
with the poll loop's count pushes (poll-mode activity), and the run's
duration sample appears twice.  The two modes are not mutually exclusive
alternatives. -/
theorem C4_counterexample :
    mainTrace ["--backfill"] envOk 1 =
      ([.durPush "7" 1705312800000 330 true,
        .countPush "completed" 3 true, .countPush "cancelled" 3 true,
        .countPush "failure" 3 true, .countPush "success" 3 true,
        .countPush "timed_out" 3 true, .countPush "in_progress" 3 true,
        .durPush "7" 1705312800000 330 true], none) ∧
    (mainTrace ["--backfill"] envOk 1).1.any Event.isCount = true := by
  refine ⟨mainTrace_envOk_backfill, ?_⟩
  rw [mainTrace_envOk_backfill]
  decide

/-- C4 (amended): without the flag, `main` runs only the poll loop; with
`--backfill`, it runs the one-shot backfill and then **unconditionally**
falls through into the poll loop (started from a fresh empty dedup ledger)
— there is no `else` in `main`.  A backfill error propagates as a nonzero
exit before the poll loop is reached, and in a healthy environment the poll
loop never exits normally, whatever the fuel. -/
theorem C4_mode_selection :
    (∀ (env : Env) (fuel : Nat), mainTrace [] env fuel = push_metrics_trace env fuel 0) ∧
    (∀ (env : Env) (fuel k : Nat) (bevs : List Event),
      backfillTrace env 0 = (k, bevs, none) →
      mainTrace ["--backfill"] env fuel =
        (bevs ++ (push_metrics_fuel env fuel ⟨[], k⟩).1,
         (push_metrics_fuel env fuel ⟨[], k⟩).2)) ∧
    (∀ (env : Env) (fuel k : Nat) (bevs : List Event) (e : PyError),
      backfillTrace env 0 = (k, bevs, some e) →
      mainTrace ["--backfill"] env fuel = (bevs, some e)) ∧
    (∀ env : Env,
      (∀ s, ∃ n, env.countResult s = .ok n) →
      (∀ pp p, env.fetchPage pp p = .ok []) →
      ∀ (fuel : Nat) (st : LoopState), (push_metrics_fuel env fuel st).2 = none) :=
  ⟨mainTrace_no_backfill, mainTrace_backfill_ok, mainTrace_backfill_err,
    push_metrics_fuel_healthy⟩

theorem C4_witness :
    mainTrace [] envCountFail 1 = push_metrics_trace envCountFail 1 0 ∧
    mainTrace ["--backfill"] envOk 2 =
      ([.durPush "7" 1705312800000 330 true] ++ (push_metrics_fuel envOk 2 ⟨[], 1⟩).1,
       (push_metrics_fuel envOk 2 ⟨[], 1⟩).2) ∧
    mainTrace ["--backfill"] envBackfillErr 1 = ([], some (.httpError 500)) ∧
    (push_metrics_fuel envEmptyOk 3 ⟨[], 0⟩).2 = none :=
  ⟨C4_mode_selection.1 envCountFail 1,
    C4_mode_selection.2.1 envOk 2 1 _ backfillTrace_envOk,
    C4_mode_selection.2.2.1 envBackfillErr 1 0 [] (.httpError 500) (by decide),
    C4_mode_selection.2.2.2 envEmptyOk (fun s => ⟨0, rfl⟩) (fun pp p => rfl) 3 ⟨[], 0⟩⟩

/-- C5 (counterexample): there is no `MalformedRecordError` behaviour in the
code.  A record with `updated_at` one hour *before* `created_at` is parsed
successfully into a record with negative duration; and a parse failure
(unparsable timestamp) in the middle of a page propagates out of the
generator — the good record after it is never yielded and the fetch pass
stops, instead of the malformed record being skipped. -/
theorem C5_counterexample :
    parse_run_data raw8neg = .ok rec8neg ∧ rec8neg.duration_seconds < 0 ∧
    fetch_all_runs pageMalformed 100 = ⟨[run7rec], [1], some .valueError⟩ :=
  ⟨parse_raw8neg, by norm_num [rec8neg], fetch_pageMalformed⟩

/-- C5 (amended): `parse_run_data` raises `KeyError` when a timestamp key is
missing and `ValueError` when a timestamp does not parse, but performs no
`updatedAt ≥ createdAt` validation: with both timestamps valid and
`updated_at < created_at` it returns a record with negative duration.  A
parse error is not skipped by the caller: it propagates out of
`fetch_all_runs` and aborts the fetch pass over the remaining records. -/
theorem C5_malformed_records :
    (∀ run : RawRun, run.created_at = none →
      parse_run_data run = .error (.keyError "created_at")) ∧
    (∀ (run : RawRun) (s : String), run.created_at = some s →
      fromisoformat (replaceZ s) = none → parse_run_data run = .error .valueError) ∧
    (∀ (run : RawRun) (cs us : String) (c u : Int) (aw : Bool),
      run.created_at = some cs → run.updated_at = some us →
      fromisoformat (replaceZ cs) = some (c, aw) →
      fromisoformat (replaceZ us) = some (u, aw) →
      u < c →
      ∃ rec, parse_run_data run = .ok rec ∧ rec.duration_seconds < 0) ∧
    fetch_all_runs pageMalformed 100 = ⟨[run7rec], [1], some .valueError⟩ := by
  refine ⟨?_, ?_, ?_, fetch_pageMalformed⟩
  · intro run h
    rw [parse_run_data, h]
  · intro run s hc hf
    simp only [parse_run_data, hc, hf]
  · intro run cs us c u aw hc hu hfc hfu hlt
    have hneg : ((u - c : Int) : ℚ) / 1000000 < 0 := by
      apply div_neg_of_neg_of_pos
      · have : (u - c : Int) < 0 := by omega
        exact_mod_cast Int.cast_lt_zero.mpr this
      · norm_num
    refine ⟨{ id := run.id, run_number := run.run_number, status := run.status,
              conclusion := run.conclusion, created_at := c, created_aware := aw,
              updated_at := u, updated_aware := aw,
              duration_seconds := ((u - c : Int) : ℚ) / 1000000,
              duration_minutes := ((u - c : Int) : ℚ) / 1000000 / 60,
              html_url := run.html_url, head_branch := run.head_branch,
              head_sha := run.head_sha.take 8 }, ?_, hneg⟩
    simp only [parse_run_data, hc, hfc, hu, hfu, bne_self_eq_false,
      Bool.false_eq_true, if_false]

theorem C5_witness :
    parse_run_data { raw7 with created_at := none } = .error (.keyError "created_at") ∧
    parse_run_data rawBad = .error .valueError ∧
    ∃ rec, parse_run_data raw8neg = .ok rec ∧ rec.duration_seconds < 0 :=
  ⟨C5_malformed_records.1 { raw7 with created_at := none } rfl,
    C5_malformed_records.2.1 rawBad "not-a-date" rfl (by decide),
    C5_malformed_records.2.2.1 raw8neg "2024-01-15T10:00:00Z" "2024-01-15T09:00:00Z"
      1705312800000000 1705309200000000 true rfl rfl (by decide) (by decide) (by decide)⟩

/-- C6: the sink serializes the sample {name x, value 1.5, timestamp 1000,
labels {a: b}, exemplar {run_id: 7}} to the exposition text whose sample
line is `x\x7ba="b"\x7d 1.5 1000 # run_id="7"` — the timestamp appended to
the sample line and the exemplar as a trailing comment — and every line of
the raw exposition text beginning with '#' is passed through unchanged. -/
theorem C6_sink_serialization :
    push_metric_serialize 1000 "x" "1.5" [("a", "b")] (some [("run_id", "7")]) =
      ["# HELP x Workflow runs metric: x", "# TYPE x gauge",
       "x\x7ba=\"b\"\x7d 1.5 1000 # run_id=\"7\"", ""] ∧
    (∀ (line : String) (ts : Int) (ex : Option (List (String × String))),
      startsWithHash line = true → annotateLine ts ex line = line) := by
  constructor
  · decide
  · intro line ts ex h
    simp [annotateLine, h]

theorem C6_witness : annotateLine 5 none "# TYPE x gauge" = "# TYPE x gauge" :=
  C6_sink_serialization.2 "# TYPE x gauge" 5 none (by decide)

/-- C7 (counterexample): "any non-2xx response is treated as a push
failure" is false as stated: a 304 response — not a 2xx — makes
`requests.Response.raise_for_status` raise nothing, so the push returns
`True` (success). -/
theorem C7_counterexample :
    push_result (.status 304) = true ∧ ¬(200 ≤ 304 ∧ 304 < 300) := by decide

/-- C7 (amended): a push attempt returns the failure value `False` exactly
when the response is a 4xx/5xx or a transport error occurs — the exception
is caught inside `push_metric_to_victoriametrics` and never raised to the
caller — and the per-status count phase completes all six statuses
regardless of the push outcomes whenever the count fetches succeed. -/
theorem C7_push_failure_semantics :
    (∀ o : HttpOutcome, push_result o = false ↔
      (o = .transportError ∨ ∃ code, o = .status code ∧ 400 ≤ code ∧ code < 600)) ∧
    (∀ (env : Env) (st : LoopState),
      (∀ s ∈ WORKFLOW_STATUSES, ∃ n, env.countResult s = .ok n) →
      (statusPhase env WORKFLOW_STATUSES st).2.2 = none ∧
        countStatuses (statusPhase env WORKFLOW_STATUSES st).2.1 = WORKFLOW_STATUSES) := by
  constructor
  · intro o
    cases o with
    | transportError => simp [push_result]
    | status code =>
      simp only [push_result, raise_for_status_raises, Bool.not_eq_false',
        Bool.and_eq_true, decide_eq_true_eq]
      constructor
      · intro h
        exact Or.inr ⟨code, rfl, h⟩
      · rintro (h | ⟨c2, hc2, h4, h6⟩)
        · exact HttpOutcome.noConfusion h
        · cases hc2
          exact ⟨h4, h6⟩
  · intro env st h
    exact statusPhase_ok env WORKFLOW_STATUSES st h

theorem C7_witness :
    push_result (.status 503) = false ∧
    ((statusPhase envPushFail WORKFLOW_STATUSES ⟨[], 0⟩).2.2 = none ∧
      countStatuses (statusPhase envPushFail WORKFLOW_STATUSES ⟨[], 0⟩).2.1 =
        WORKFLOW_STATUSES) :=
  ⟨(C7_push_failure_semantics.1 (.status 503)).mpr
      (Or.inr ⟨503, rfl, by omega, by omega⟩),
    C7_push_failure_semantics.2 envPushFail ⟨[], 0⟩ (fun s _ => ⟨0, rfl⟩)⟩

/-- C8: within one poll-loop lifetime, processing the same run id twice
results in exactly one push call for it: over any window of parsed runs the
number of duration pushes for an id is 1 if the id occurs in the window and
is not yet in the ledger, 0 otherwise (the second encounter is
short-circuited by the seen-check); and across a whole loop lifetime the
pushed duration ids are pairwise distinct. -/
theorem C8_dedup_effectively_once :
    (∀ (po : Nat → HttpOutcome) (rs : List RunRecord) (st : LoopState) (i : String),
      durCountFor i (processParsedRuns po st rs).2 =
        if (∃ r ∈ rs, runIdStr r = i) ∧ i ∉ st.processed then 1 else 0) ∧
    (∀ (env : Env) (fuel startPushes : Nat),
      (durIds (push_metrics_trace env fuel startPushes).1).Nodup) := by
  constructor
  · intro po rs st i
    exact durCount_processParsedRuns po rs st i
  · intro env fuel k
    rw [List.nodup_iff_count_le_one]
    intro i
    have h := push_metrics_fuel_durCount env fuel ⟨[], k⟩ i
    simp only [durCountFor] at h
    rw [push_metrics_trace]
    exact le_trans h (by simp)

/-- C9: for every raw record whose `created_at`/`updated_at` parse as
ISO-8601 instants (a trailing 'Z' having been replaced by the +00:00 UTC
offset) with matching awareness and `updated_at ≥ created_at`,
`parse_run_data` succeeds, `duration_seconds` is exactly the difference of
the two instants in seconds, and `duration_minutes` is exactly
`duration_seconds / 60`. -/
theorem C9_duration_exactness :
    ∀ (run : RawRun) (cs us : String) (c u : Int) (aw : Bool),
      run.created_at = some cs → run.updated_at = some us →
      fromisoformat (replaceZ cs) = some (c, aw) →
      fromisoformat (replaceZ us) = some (u, aw) →
      c ≤ u →
      ∃ rec, parse_run_data run = .ok rec ∧
        rec.duration_seconds = ((u - c : Int) : ℚ) / 1000000 ∧
        rec.duration_minutes = rec.duration_seconds / 60 := by
  intro run cs us c u aw hc hu hfc hfu _
  refine ⟨{ id := run.id, run_number := run.run_number, status := run.status,
            conclusion := run.conclusion, created_at := c, created_aware := aw,
            updated_at := u, updated_aware := aw,
            duration_seconds := ((u - c : Int) : ℚ) / 1000000,
            duration_minutes := ((u - c : Int) : ℚ) / 1000000 / 60,
            html_url := run.html_url, head_branch := run.head_branch,
            head_sha := run.head_sha.take 8 }, ?_, rfl, rfl⟩
  simp only [parse_run_data, hc, hfc, hu, hfu, bne_self_eq_false,
    Bool.false_eq_true, if_false]

/-- C9 witness: run 7, created 2024-01-15T10:00:00Z and updated
2024-01-15T10:05:30Z, gets a duration of exactly 330 seconds. -/
theorem C9_witness :
    ∃ rec, parse_run_data raw7 = .ok rec ∧
      rec.duration_seconds = ((1705313130000000 - 1705312800000000 : Int) : ℚ) / 1000000 ∧
      rec.duration_minutes = rec.duration_seconds / 60 :=
  C9_duration_exactness raw7 "2024-01-15T10:00:00Z" "2024-01-15T10:05:30Z"
    1705312800000000 1705313130000000 true rfl rfl (by decide) (by decide) (by decide)

/-- C10: after a successful backfill, `main` unconditionally calls
`push_metrics`, which constructs a fresh empty dedup set; concretely, with
run 7 in both the backfill window and the poll loop's first window, its
duration sample is pushed twice in the same process lifetime. -/
theorem C10_backfill_then_poll_repushes :
    (∀ (env : Env) (fuel k : Nat) (bevs : List Event),
      backfillTrace env 0 = (k, bevs, none) →
      mainTrace ["--backfill"] env fuel =
        (bevs ++ (push_metrics_fuel env fuel ⟨[], k⟩).1,
         (push_metrics_fuel env fuel ⟨[], k⟩).2)) ∧
    durCountFor "7" (mainTrace ["--backfill"] envOk 1).1 = 2 := by
  refine ⟨mainTrace_backfill_ok, ?_⟩
  rw [mainTrace_envOk_backfill]
  decide

theorem C10_witness :
    mainTrace ["--backfill"] envOk 3 =
      ([.durPush "7" 1705312800000 330 true] ++ (push_metrics_fuel envOk 3 ⟨[], 1⟩).1,
       (push_metrics_fuel envOk 3 ⟨[], 1⟩).2) :=
  C10_backfill_then_poll_repushes.1 envOk 3 1 _ backfillTrace_envOk
